import Mathlib

/-
Formal model of the gardrob virtual try-on application.

The repository contains two snapshots of the main `App` component in
`src/App.tsx` (separated by a document marker):

* the first (modelled here as `AppV1`) keeps, per outfit layer, a map
  `poseImages : pose-instruction → image url`, with
  `handleGarmentSelectForTryOn`, `handlePoseSelect` and
  `handleRemoveLastGarment`;
* the second (modelled here as `AppV2`) keeps a single `imageUrl` per layer
  together with a separate `poseVariations : index → image url` cache for the
  topmost layer, with `handleAddGarment`, `handleSelectPose`,
  `handleRemoveLastGarment`, `handleSaveOutfit` and `handleLoadOutfit`.

`src/unnamed/part_010` additionally contains `useImageQueue`, a bounded
concurrent image loader with a module-level success cache and in-flight set;
it is modelled in namespace `ImageQueue` as a state machine over the event
loop (each event is either a `load(url)` call or the completion of a running
fetch task).

External effects are embedded explicitly: the generative transform
(`generateVirtualTryOnImage` / `generatePoseVariation`, together with the
`imageUrlToDataUrl` conversion feeding it, all of which fail into the same
catch block) is passed in as a function `String → String → Except Err String`
on the base image and the garment/pose payload, and each handler additionally
returns the error it surfaces via `alert` (if any) and the list of
(base, payload) arguments it passed to the transform, so that "exactly one
call, no retry" is a provable statement rather than a convention.
-/

set_option linter.unusedVariables false

namespace Gardrob

/-- Errors surfaced to the user via `alert` are opaque strings. -/
abbrev Err := String

/-- A wardrobe item (`WardrobeItem` in `types.ts`): id, display name, image
url and optional category. -/
structure WardrobeItem where
  id : String
  name : String
  url : String
  category : Option String
deriving DecidableEq, Repr

/-- A user model (`UserModel` in `types.ts`); `createdAt` is irrelevant to the
claims and omitted. -/
structure UserModel where
  id : String
  name : String
  imageUrl : String
deriving DecidableEq, Repr

/-- JS truthiness of a possibly-missing string (`undefined` and the empty
string are falsy). -/
def jsTruthy : Option String → Bool
  | some v => v ≠ ""
  | none => false

/-- JS `a || b` on possibly-missing strings: yields `b` whenever `a` is
falsy (missing or empty). -/
def jsOrElse : Option String → Option String → Option String
  | some v, b => if v = "" then b else some v
  | none, b => b

/-- Lookup in a JS object modelled as an association list (first match
wins). -/
def lookupKey {α : Type} [DecidableEq α] : List (α × String) → α → Option String
  | [], _ => none
  | (k, v) :: rest, key => if k = key then some v else lookupKey rest key

/-- JS object update `{...obj, [k]: v}`, modelled so that `lookupKey` sees
the updated binding and all other bindings unchanged. -/
def objSet {α : Type} [DecidableEq α] (l : List (α × String)) (k : α) (v : String) :
    List (α × String) :=
  (k, v) :: l.filter (fun p => decide (p.1 ≠ k))

namespace AppV1

/-- The pose instruction list of the first `App` snapshot
(`POSE_INSTRUCTIONS` in `src/App.tsx`); index 0 is the default pose. -/
def POSE_INSTRUCTIONS : List String :=
  ["Szemben állva",
   "Enyhén elfordulva, 3/4-es nézet",
   "Oldalnézet",
   "Kamera felé sétálva",
   "Falnak támaszkodva",
   "Kéz a zsebben",
   "Karba tett kézzel",
   "Magabiztos csípőre tett kéz",
   "Háttal állva, váll fölött visszanézve"]

/-- The default pose key `POSE_INSTRUCTIONS[0]`. -/
def defaultPose : String := POSE_INSTRUCTIONS.getD 0 ""

/-- One outfit layer of the first snapshot: an optional garment and a map
from pose instruction to rendered image url. -/
structure OutfitLayer where
  garment : Option WardrobeItem
  poseImages : List (String × String)
deriving DecidableEq, Repr

/-- The dressing-room state of the first snapshot: `outfitHistory` and
`currentPoseIndex`. -/
structure DressState where
  outfitHistory : List OutfitLayer
  currentPoseIndex : Nat
deriving DecidableEq, Repr

/-- `resetDressingRoom`: a single root layer seeded with the model image at
the default pose. -/
def resetDressingRoom (model : UserModel) : DressState :=
  { outfitHistory := [{ garment := none,
                        poseImages := [(defaultPose, model.imageUrl)] }],
    currentPoseIndex := 0 }

/-- Alert message of the missing-base-image branch of
`handleGarmentSelectForTryOn`. -/
def alertNoBase : Err := "Az előző réteg alapképe nem található. A folyamat alaphelyzetbe áll."

/-- `handleGarmentSelectForTryOn` (first snapshot): reads the topmost layer,
takes its default-pose image as base, calls the transform with
(base, garment file) and on success appends a layer whose `poseImages` holds
exactly the default-pose entry, resetting `currentPoseIndex` to 0.  The empty
history guard (`outfitHistory.length === 0`) is the `none` case of
`getLast?`; a missing/empty base image triggers `resetDressingRoom`.
Returns (new state, surfaced error, transform calls made). -/
def handleGarmentSelectForTryOn (tf : String → String → Except Err String)
    (model : UserModel) (s : DressState) (garmentFile : String)
    (garmentInfo : WardrobeItem) :
    DressState × Option Err × List (String × String) :=
  match s.outfitHistory.getLast? with
  | none => (s, none, [])
  | some lastLayer =>
    match lookupKey lastLayer.poseImages defaultPose with
    | none => (resetDressingRoom model, some alertNoBase, [])
    | some base =>
      if base = "" then (resetDressingRoom model, some alertNoBase, [])
      else
        match tf base garmentFile with
        | .ok newImageUrl =>
          ({ outfitHistory := s.outfitHistory ++
               [{ garment := some garmentInfo,
                  poseImages := [(defaultPose, newImageUrl)] }],
             currentPoseIndex := 0 }, none, [(base, garmentFile)])
        | .error e => (s, some e, [(base, garmentFile)])

/-- Alert message of the missing-source branch of `handlePoseSelect`. -/
def alertNoSource : Err := "Hiányzik az alap kép a jelenlegi szetthez."

/-- Replace the topmost layer of the history by updating its `poseImages`
at `k` with `v` (the shallow-copy update of `handlePoseSelect`). -/
def updateLastPose : List OutfitLayer → String → String → List OutfitLayer
  | [], _, _ => []
  | [l], k, v => [{ l with poseImages := objSet l.poseImages k v }]
  | l :: l2 :: ls, k, v => l :: updateLastPose (l2 :: ls) k v

/-- `handlePoseSelect` (first snapshot): cached target pose is a pure index
update; otherwise the transform is called with (default-pose image of the
topmost layer, target instruction), the result stored into the topmost
layer's `poseImages`, and the index updated.  On failure only an alert is
raised: state (including `currentPoseIndex`) is left as it was.  On an empty
history the JS code throws before reaching the try block; that unreachable
case is mapped to an unchanged state with a surfaced `TypeError`. -/
def handlePoseSelect (tf : String → String → Except Err String)
    (s : DressState) (poseIndex : Nat) :
    DressState × Option Err × List (String × String) :=
  match s.outfitHistory.getLast? with
  | none => (s, some "TypeError", [])
  | some currentLayer =>
    if jsTruthy (lookupKey currentLayer.poseImages
        (POSE_INSTRUCTIONS.getD poseIndex "")) then
      ({ s with currentPoseIndex := poseIndex }, none, [])
    else
      match lookupKey currentLayer.poseImages defaultPose with
      | none => (s, some alertNoSource, [])
      | some source =>
        if source = "" then (s, some alertNoSource, [])
        else
          match tf source (POSE_INSTRUCTIONS.getD poseIndex "") with
          | .ok newImg =>
            ({ outfitHistory := updateLastPose s.outfitHistory
                 (POSE_INSTRUCTIONS.getD poseIndex "") newImg,
               currentPoseIndex := poseIndex }, none,
             [(source, POSE_INSTRUCTIONS.getD poseIndex "")])
          | .error e =>
            (s, some e, [(source, POSE_INSTRUCTIONS.getD poseIndex "")])

/-- `handleRemoveLastGarment` (first snapshot): pop the last layer and reset
the pose index, but only when more than one layer is present. -/
def handleRemoveLastGarment (s : DressState) : DressState :=
  if 1 < s.outfitHistory.length then
    { outfitHistory := s.outfitHistory.dropLast, currentPoseIndex := 0 }
  else s

/-- `displayImageUrl` (first snapshot): the topmost layer's image at the
current pose instruction, `null` when missing (`x || null` also maps an
empty string to `null`). -/
def displayImageUrl (s : DressState) : Option String :=
  match (s.outfitHistory.getLast?).bind
      (fun l => lookupKey l.poseImages (POSE_INSTRUCTIONS.getD s.currentPoseIndex "")) with
  | some v => if v = "" then none else some v
  | none => none

end AppV1

namespace AppV2

/-- The pose instruction list of the second `App` snapshot. -/
def POSE_INSTRUCTIONS : List String :=
  ["Standing, facing forward, relaxed pose",
   "Slightly turned, 3/4 view",
   "Walking towards camera, in motion",
   "Side profile view",
   "Leaning against a neutral wall",
   "Hands in pockets, casual stance"]

/-- One outfit layer of the second snapshot (`OutfitLayer` in `types.ts`):
an optional garment and the rendered image url of this layer. -/
structure OutfitLayer where
  garment : Option WardrobeItem
  imageUrl : String
deriving DecidableEq, Repr

/-- A saved outfit (`SavedOutfit` in `types.ts`). -/
structure SavedOutfit where
  id : String
  name : String
  createdAt : Nat
  previewImageUrl : String
  layers : List OutfitLayer
deriving DecidableEq, Repr

/-- The dressing-room state of the second snapshot: the outfit history, the
current pose index, the pose-variation cache of the topmost layer, the saved
outfits, and the wardrobe catalog. -/
structure DressState where
  outfitHistory : List OutfitLayer
  currentPoseIndex : Nat
  poseVariations : List (Nat × String)
  savedOutfits : List SavedOutfit
  wardrobe : List WardrobeItem
deriving DecidableEq, Repr

/-- `transitionToDressingRoom`: a single root layer with the model image,
pose cache seeded with the default entry, index 0.  `savedOutfits` and
`wardrobe` stand for the data fetched for the user. -/
def transitionToDressingRoom (model : UserModel) (wardrobe : List WardrobeItem)
    (savedOutfits : List SavedOutfit) : DressState :=
  { outfitHistory := [{ garment := none, imageUrl := model.imageUrl }],
    currentPoseIndex := 0,
    poseVariations := [(0, model.imageUrl)],
    savedOutfits := savedOutfits,
    wardrobe := wardrobe }

/-- `handleAddGarment` (second snapshot): the base image is the topmost
layer's `imageUrl`; it is fed through `imageUrlToDataUrl` into
`generateVirtualTryOnImage` (both external suspension points, modelled as
the single transform `tf`, whose failures land in the same catch block).
On success a new layer is appended, the index reset to 0 and the pose cache
replaced by exactly the default entry.  On failure (including the JS
`TypeError` thrown inside the try block when the history is empty) only an
alert is raised.  Returns (new state, surfaced error, transform calls). -/
def handleAddGarment (tf : String → String → Except Err String)
    (s : DressState) (garmentFile : String) (garmentInfo : WardrobeItem) :
    DressState × Option Err × List (String × String) :=
  match s.outfitHistory.getLast? with
  | none => (s, some "TypeError", [])
  | some lastLayer =>
    match tf lastLayer.imageUrl garmentFile with
    | .ok newImageUrl =>
      ({ s with
          outfitHistory := s.outfitHistory ++
            [{ garment := some garmentInfo, imageUrl := newImageUrl }],
          currentPoseIndex := 0,
          poseVariations := [(0, newImageUrl)] },
       none, [(lastLayer.imageUrl, garmentFile)])
    | .error e => (s, some e, [(lastLayer.imageUrl, garmentFile)])

/-- `handleRemoveLastGarment` (second snapshot): pop the last layer, reset
the index and clear the pose cache, but only when more than one layer is
present. -/
def handleRemoveLastGarment (s : DressState) : DressState :=
  if 1 < s.outfitHistory.length then
    { s with outfitHistory := s.outfitHistory.dropLast,
             currentPoseIndex := 0,
             poseVariations := [] }
  else s

/-- `handleSelectPose` (second snapshot): sets the index; if the pose is
cached nothing else happens.  Otherwise the transform is called with the
topmost layer's `imageUrl` (via `imageUrlToDataUrl`, folded into `tf`) and
the pose instruction; on success the result is cached under the index, on
failure the index reverts to the default pose 0.  An empty history throws
inside the try block (`TypeError`), also reverting the index to 0. -/
def handleSelectPose (tf : String → String → Except Err String)
    (s : DressState) (index : Nat) :
    DressState × Option Err × List (String × String) :=
  if jsTruthy (lookupKey s.poseVariations index) then
    ({ s with currentPoseIndex := index }, none, [])
  else
    match s.outfitHistory.getLast? with
    | none => ({ s with currentPoseIndex := 0 }, some "TypeError", [])
    | some lastLayer =>
      match tf lastLayer.imageUrl (POSE_INSTRUCTIONS.getD index "") with
      | .ok newImageUrl =>
        ({ s with currentPoseIndex := index,
                  poseVariations := objSet s.poseVariations index newImageUrl },
         none, [(lastLayer.imageUrl, POSE_INSTRUCTIONS.getD index "")])
      | .error e =>
        ({ s with currentPoseIndex := 0 }, some e,
         [(lastLayer.imageUrl, POSE_INSTRUCTIONS.getD index "")])

/-- The image displayed at save time
(`poseVariations[currentPoseIndex] || outfitHistory[last].imageUrl`). -/
def savePreview (s : DressState) : String :=
  (jsOrElse (lookupKey s.poseVariations s.currentPoseIndex)
    ((s.outfitHistory.getLast?).map OutfitLayer.imageUrl)).getD ""

/-- Modelled from the spec: `storage.saveOutfitForUser` is called from
`handleSaveOutfit` but its implementation is not part of the sources; per
the spec it builds a `SavedOutfit` from the assigned id and timestamp, the
user-assigned name, the currently displayed image as `previewImageRef`, and
the layer chain. -/
def saveOutfitForUser (_userId : String) (outfitName : String)
    (previewImageUrl : String) (layers : List OutfitLayer)
    (newId : String) (ts : Nat) : SavedOutfit :=
  { id := newId, name := outfitName, createdAt := ts,
    previewImageUrl := previewImageUrl, layers := layers }

/-- `handleSaveOutfit` (second snapshot): refuses to save a history of
length ≤ 1 (validation alert, no external call); otherwise delegates to
`saveOutfitForUser` with the currently displayed image as preview, and on
success prepends the created outfit.  `persistOk` is the outcome of the
external persistence call. -/
def handleSaveOutfit (s : DressState) (outfitName : String) (newId : String)
    (ts : Nat) (persistOk : Bool) : DressState × Option Err :=
  if s.outfitHistory.length ≤ 1 then
    (s, some "Adj hozzá legalább egy ruhadarabot a mentéshez.")
  else
    if persistOk then
      let newOutfit := saveOutfitForUser "user" outfitName (savePreview s)
        s.outfitHistory newId ts
      ({ s with savedOutfits := newOutfit :: s.savedOutfits }, none)
    else (s, some "Hiba a szett mentésekor")

/-- Rehydrate one saved layer against the live wardrobe: the garment is
re-resolved by id (falling back to the stored reference when absent) and the
image reference is reset to the empty string. -/
def rehydrateLayer (wardrobe : List WardrobeItem) (layer : OutfitLayer) :
    OutfitLayer :=
  { garment :=
      match layer.garment with
      | some g => some ((wardrobe.find? (fun w => w.id == g.id)).getD g)
      | none => none,
    imageUrl := "" }

/-- In-place update of the last element's `imageUrl`
(`rehydratedLayers[rehydratedLayers.length - 1].imageUrl = ...`). -/
def setLastImageUrl : List OutfitLayer → String → List OutfitLayer
  | [], _ => []
  | [l], img => [{ l with imageUrl := img }]
  | l :: l2 :: ls, img => l :: setLastImageUrl (l2 :: ls) img

/-- `handleLoadOutfit` (second snapshot): find the saved outfit by id; if
present, rebuild the history from its layers (garments re-resolved against
the wardrobe, image references blanked), put the preview image on the last
layer, seed the pose cache with the default entry, and reset the index. -/
def handleLoadOutfit (s : DressState) (outfitId : String) : DressState :=
  match s.savedOutfits.find? (fun o => o.id == outfitId) with
  | none => s
  | some outfitToLoad =>
    let rehydratedLayers := outfitToLoad.layers.map (rehydrateLayer s.wardrobe)
    let rehydratedLayers2 :=
      if 0 < rehydratedLayers.length then
        setLastImageUrl rehydratedLayers outfitToLoad.previewImageUrl
      else rehydratedLayers
    { s with outfitHistory := rehydratedLayers2,
             poseVariations := [(0, outfitToLoad.previewImageUrl)],
             currentPoseIndex := 0 }

/-- `displayImageUrl` (second snapshot):
`poseVariations[currentPoseIndex] || outfitHistory[last]?.imageUrl`. -/
def displayImageUrl (s : DressState) : Option String :=
  jsOrElse (lookupKey s.poseVariations s.currentPoseIndex)
    ((s.outfitHistory.getLast?).map OutfitLayer.imageUrl)

/-- One serialized store operation on the dressing-room state, with the
outcomes of its external calls supplied oracle-style. -/
inductive StoreOp where
  | addGarment (garmentFile : String) (garmentInfo : WardrobeItem)
      (tf : String → String → Except Err String)
  | removeLast
  | selectPose (index : Nat) (tf : String → String → Except Err String)
  | saveOutfit (outfitName newId : String) (ts : Nat) (persistOk : Bool)
  | loadOutfit (outfitId : String)

/-- Apply one store operation to the state. -/
def stepOp (s : DressState) : StoreOp → DressState
  | .addGarment f g tf => (handleAddGarment tf s f g).1
  | .removeLast => handleRemoveLastGarment s
  | .selectPose i tf => (handleSelectPose tf s i).1
  | .saveOutfit n nid ts ok => (handleSaveOutfit s n nid ts ok).1
  | .loadOutfit oid => handleLoadOutfit s oid

/-- Run a sequence of store operations. -/
def runOps (s : DressState) (ops : List StoreOp) : DressState :=
  ops.foldl stepOp s

/-- Invariant of the dressing-room state: the root layer is always present
and every saved outfit has a non-empty layer chain (the application only
ever persists histories of length ≥ 2). -/
def InvD (s : DressState) : Prop :=
  s.outfitHistory ≠ [] ∧ ∀ o ∈ s.savedOutfits, o.layers ≠ []

end AppV2

namespace ImageQueue

/-- State of the bounded image loader of `useImageQueue`
(`src/unnamed/part_010`): the module-level success `CACHE` (url → resolved
url) and in-flight `PENDING` set, the hook's FIFO `queue` of not-yet-started
fetch tasks (identified by their url) and the multiset `active` of urls whose
fetch task is currently running.  `started` and `enqueued` are ghost logs:
the urls whose fetch has been started (in start order) and the urls for which
a fetch task was ever created. -/
structure LoaderState where
  cache : List (String × String)
  pending : List String
  queue : List String
  active : List String
  started : List String
  enqueued : List String
deriving DecidableEq, Repr

/-- The initial loader state: everything empty. -/
def initState : LoaderState :=
  { cache := [], pending := [], queue := [], active := [],
    started := [], enqueued := [] }

/-- The body of `pump`'s while loop, fueled by the length of the queue (the
queue only shrinks during a single `pump` run): while fewer than `N` tasks
are active and the queue is non-empty, shift the head task off the queue and
start it. -/
def pumpFuel (N : Nat) : Nat → LoaderState → LoaderState
  | 0, s => s
  | fuel + 1, s =>
    match s.queue with
    | [] => s
    | u :: rest =>
      if s.active.length < N then
        pumpFuel N fuel
          { s with queue := rest,
                   active := u :: s.active,
                   started := s.started ++ [u] }
      else s

/-- `pump`: run the while loop to completion. -/
def pump (N : Nat) (s : LoaderState) : LoaderState :=
  pumpFuel N s.queue.length s

/-- What a `load(src)` call immediately hands back to its caller: a
synchronously resolved cache hit, a polling promise waiting for another
caller's in-flight request, or a fresh promise backed by a newly enqueued
fetch task. -/
inductive LoadResult where
  | hit (v : String)
  | waiting
  | enqueuedNew
deriving DecidableEq, Repr

/-- `load(src)`: cache hit returns the cached value with no state change; a
url already in `PENDING` waits (no state change, no new fetch); otherwise
the url is marked in-flight, a fetch task for it is appended to the queue
(`schedule`), and `pump` runs. -/
def load (N : Nat) (s : LoaderState) (src : String) :
    LoaderState × LoadResult :=
  match lookupKey s.cache src with
  | some v => (s, .hit v)
  | none =>
    if src ∈ s.pending then (s, .waiting)
    else
      (pump N { s with pending := src :: s.pending,
                       queue := s.queue ++ [src],
                       enqueued := s.enqueued ++ [src] },
       .enqueuedNew)

/-- Completion of the running fetch task for `src` (success or failure): on
success `CACHE.set(src, src)`; in both cases the in-flight marker is removed
(the task's `finally`), the active count drops (the scheduler's `finally`)
and `pump` runs again. -/
def complete (N : Nat) (s : LoaderState) (src : String) (success : Bool) :
    LoaderState :=
  if src ∈ s.active then
    pump N
      { s with active := s.active.erase src,
               cache := if success then (src, src) :: s.cache else s.cache,
               pending := s.pending.erase src }
  else s

/-- One event of the single-threaded event loop: a `load(url)` call or the
completion of a running fetch. -/
inductive LEvent where
  | load (src : String)
  | complete (src : String) (success : Bool)
deriving DecidableEq, Repr

/-- Apply one event to the loader state. -/
def lstep (N : Nat) (s : LoaderState) : LEvent → LoaderState
  | .load src => (load N s src).1
  | .complete src success => complete N s src success

/-- Run a trace of events from the initial state. -/
def lrun (N : Nat) (es : List LEvent) : LoaderState :=
  es.foldl (lstep N) initState

/-- The configured default concurrency limit (`concurrency = 6`). -/
def defaultConcurrency : Nat := 6

/-- The trace never completes a fetch for `src` (neither successfully nor
with a failure). -/
def noCompletion (src : String) (es : List LEvent) : Prop :=
  LEvent.complete src true ∉ es ∧ LEvent.complete src false ∉ es

/-- The trace never completes a fetch for `src` successfully. -/
def noSuccess (src : String) (es : List LEvent) : Prop :=
  LEvent.complete src true ∉ es

/-- The polling promise handed to a `load(src)` caller that found `src`
in-flight settles exactly when the poll condition `CACHE.has(src)` becomes
true; its executor has no rejection path. -/
def waiterSettles (s : LoaderState) (src : String) : Bool :=
  (lookupKey s.cache src).isSome

/-- Scheduler invariant: at most `N` tasks are active, and the queue is only
non-empty while the active set is saturated. -/
def InvL (N : Nat) (s : LoaderState) : Prop :=
  s.active.length ≤ N ∧ (s.queue = [] ∨ N ≤ s.active.length)

/-- Every cache entry maps a url to itself (`CACHE.set(src, src)`). -/
def cacheDiag (s : LoaderState) : Prop := ∀ p ∈ s.cache, p.2 = p.1

/-- Invariant tracking a single url `src` that has not completed yet: it is
not cached, it has been enqueued exactly once if (and only if) it is
in-flight, and every enqueued task is accounted for as queued or started. -/
def freshInv (src : String) (s : LoaderState) : Prop :=
  (∀ v, (src, v) ∉ s.cache) ∧
  (List.count src s.enqueued = if src ∈ s.pending then 1 else 0) ∧
  (List.count src s.started + List.count src s.queue = List.count src s.enqueued)

end ImageQueue

/-! Generic helper lemmas. -/

theorem foldl_inv {σ ε : Type} {f : σ → ε → σ} {P : σ → Prop}
    (step : ∀ s e, P s → P (f s e)) :
    ∀ (es : List ε) (s : σ), P s → P (es.foldl f s)
  | [], _, h => h
  | e :: es, s, h => foldl_inv step es (f s e) (step s e h)

theorem foldl_inv_guard {σ ε : Type} {f : σ → ε → σ} {P : σ → Prop}
    (Q : ε → Prop) (step : ∀ s e, P s → Q e → P (f s e)) :
    ∀ (es : List ε) (s : σ), P s → (∀ e ∈ es, Q e) → P (es.foldl f s)
  | [], _, h, _ => h
  | e :: es, s, h, hq =>
    foldl_inv_guard Q step es (f s e)
      (step s e h (hq e (List.mem_cons_self e es)))
      (fun x hx => hq x (List.mem_cons_of_mem e hx))

theorem getLast?_mem {α : Type} (l : List α) (a : α) (h : l.getLast? = some a) :
    a ∈ l := by
  induction l with
  | nil => simp at h
  | cons x t ih =>
    cases t with
    | nil =>
      simp [List.getLast?] at h
      simp [h]
    | cons y t2 =>
      rw [List.getLast?_cons_cons] at h
      exact List.mem_cons_of_mem x (ih h)

theorem ne_nil_of_getLast? {α : Type} {l : List α} {a : α}
    (h : l.getLast? = some a) : l ≠ [] := by
  intro hnil
  rw [hnil] at h
  simp at h

theorem dropLast_cons_ne_nil {α : Type} (a : α) {l : List α} (h : l ≠ []) :
    (a :: l).dropLast = a :: l.dropLast := by
  cases l with
  | nil => exact absurd rfl h
  | cons b t => rfl

theorem mem_of_mem_dropLast {α : Type} {l : List α} {a : α}
    (h : a ∈ l.dropLast) : a ∈ l :=
  (List.dropLast_sublist l).subset h

theorem getLast?_exists_of_ne_nil {α : Type} :
    ∀ (l : List α), l ≠ [] → ∃ a, l.getLast? = some a := by
  intro l
  induction l with
  | nil => intro h; exact absurd rfl h
  | cons x t ih =>
    intro _
    cases t with
    | nil => exact ⟨x, rfl⟩
    | cons y t2 =>
      obtain ⟨a, ha⟩ := ih (by simp)
      exact ⟨a, by rw [List.getLast?_cons_cons]; exact ha⟩

theorem getLast?_cons_of_ne_nil {α : Type} (a : α) {l : List α} (h : l ≠ []) :
    (a :: l).getLast? = l.getLast? := by
  cases l with
  | nil => exact absurd rfl h
  | cons b t => exact List.getLast?_cons_cons

theorem lookupKey_eq_some {α : Type} [DecidableEq α] :
    ∀ (l : List (α × String)) (k : α) (v : String),
      lookupKey l k = some v → (k, v) ∈ l := by
  intro l
  induction l with
  | nil => intro k v h; simp [lookupKey] at h
  | cons p rest ih =>
    obtain ⟨pk, pv⟩ := p
    intro k v h
    simp only [lookupKey] at h
    split at h
    · next heq =>
      injection h with h2
      subst heq
      subst h2
      exact List.mem_cons_self _ _
    · exact List.mem_cons_of_mem _ (ih k v h)

theorem lookupKey_eq_none {α : Type} [DecidableEq α]
    (l : List (α × String)) (k : α) (h : ∀ v, (k, v) ∉ l) :
    lookupKey l k = none := by
  induction l with
  | nil => rfl
  | cons p rest ih =>
    obtain ⟨pk, pv⟩ := p
    simp only [lookupKey]
    split
    · next heq =>
      subst heq
      exact absurd (List.mem_cons_self _ _) (h pv)
    · exact ih (fun v hv => h v (List.mem_cons_of_mem _ hv))

namespace ImageQueue

/-! Lemmas about `pump`. -/

theorem pumpFuel_cache (N : Nat) :
    ∀ (fuel : Nat) (s : LoaderState), (pumpFuel N fuel s).cache = s.cache := by
  intro fuel
  induction fuel with
  | zero => intro s; rfl
  | succ f ih =>
    intro s
    cases hq : s.queue with
    | nil => simp [pumpFuel, hq]
    | cons u rest =>
      by_cases hlt : s.active.length < N
      · simp [pumpFuel, hq, hlt, ih]
      · simp [pumpFuel, hq, hlt]

theorem pumpFuel_pending (N : Nat) :
    ∀ (fuel : Nat) (s : LoaderState), (pumpFuel N fuel s).pending = s.pending := by
  intro fuel
  induction fuel with
  | zero => intro s; rfl
  | succ f ih =>
    intro s
    cases hq : s.queue with
    | nil => simp [pumpFuel, hq]
    | cons u rest =>
      by_cases hlt : s.active.length < N
      · simp [pumpFuel, hq, hlt, ih]
      · simp [pumpFuel, hq, hlt]

theorem pumpFuel_enqueued (N : Nat) :
    ∀ (fuel : Nat) (s : LoaderState), (pumpFuel N fuel s).enqueued = s.enqueued := by
  intro fuel
  induction fuel with
  | zero => intro s; rfl
  | succ f ih =>
    intro s
    cases hq : s.queue with
    | nil => simp [pumpFuel, hq]
    | cons u rest =>
      by_cases hlt : s.active.length < N
      · simp [pumpFuel, hq, hlt, ih]
      · simp [pumpFuel, hq, hlt]

theorem pumpFuel_spec (N : Nat) :
    ∀ (fuel : Nat) (s : LoaderState),
      ∃ k, (pumpFuel N fuel s).queue = s.queue.drop k ∧
           (pumpFuel N fuel s).started = s.started ++ s.queue.take k ∧
           (pumpFuel N fuel s).active = (s.queue.take k).reverse ++ s.active := by
  intro fuel
  induction fuel with
  | zero => intro s; exact ⟨0, by simp [pumpFuel]⟩
  | succ f ih =>
    intro s
    cases hq : s.queue with
    | nil => exact ⟨0, by simp [pumpFuel, hq]⟩
    | cons u rest =>
      by_cases hlt : s.active.length < N
      · obtain ⟨k, h1, h2, h3⟩ :=
          ih { s with queue := rest, active := u :: s.active,
                      started := s.started ++ [u] }
        refine ⟨k + 1, ?_, ?_, ?_⟩ <;>
          simp [pumpFuel, hq, hlt, h1, h2, h3]
      · exact ⟨0, by simp [pumpFuel, hq, hlt]⟩

theorem pump_cache (N : Nat) (s : LoaderState) : (pump N s).cache = s.cache :=
  pumpFuel_cache N s.queue.length s

theorem pump_pending (N : Nat) (s : LoaderState) :
    (pump N s).pending = s.pending :=
  pumpFuel_pending N s.queue.length s

theorem pump_enqueued (N : Nat) (s : LoaderState) :
    (pump N s).enqueued = s.enqueued :=
  pumpFuel_enqueued N s.queue.length s

theorem pump_spec (N : Nat) (s : LoaderState) :
    ∃ k, (pump N s).queue = s.queue.drop k ∧
         (pump N s).started = s.started ++ s.queue.take k ∧
         (pump N s).active = (s.queue.take k).reverse ++ s.active :=
  pumpFuel_spec N s.queue.length s

theorem pumpFuel_active_le (N : Nat) :
    ∀ (fuel : Nat) (s : LoaderState),
      s.active.length ≤ N → (pumpFuel N fuel s).active.length ≤ N := by
  intro fuel
  induction fuel with
  | zero => intro s h; exact h
  | succ f ih =>
    intro s h
    cases hq : s.queue with
    | nil => simpa [pumpFuel, hq] using h
    | cons u rest =>
      by_cases hlt : s.active.length < N
      · have h2 := ih { s with queue := rest, active := u :: s.active,
                               started := s.started ++ [u] }
          (by simpa using hlt)
        simpa [pumpFuel, hq, hlt] using h2
      · simpa [pumpFuel, hq, hlt] using h

theorem pumpFuel_started_le (N : Nat) :
    ∀ (fuel : Nat) (s : LoaderState),
      (pumpFuel N fuel s).started.length
        ≤ s.started.length + (N - s.active.length) := by
  intro fuel
  induction fuel with
  | zero => intro s; simp [pumpFuel]
  | succ f ih =>
    intro s
    cases hq : s.queue with
    | nil => simp [pumpFuel, hq]
    | cons u rest =>
      by_cases hlt : s.active.length < N
      · have h2 := ih { s with queue := rest, active := u :: s.active,
                               started := s.started ++ [u] }
        simp only [pumpFuel, hq, hlt, if_true] at h2 ⊢
        simp at h2
        omega
      · simp [pumpFuel, hq, hlt]

theorem pump_count (N : Nat) (s : LoaderState) (a : String) :
    List.count a (pump N s).started + List.count a (pump N s).queue
      = List.count a s.started + List.count a s.queue := by
  obtain ⟨k, h1, h2, h3⟩ := pump_spec N s
  rw [h1, h2, List.count_append, Nat.add_assoc, ← List.count_append,
    List.take_append_drop]

theorem pumpFuel_post (N : Nat) :
    ∀ (fuel : Nat) (s : LoaderState), s.queue.length ≤ fuel →
      (pumpFuel N fuel s).queue = [] ∨ N ≤ (pumpFuel N fuel s).active.length := by
  intro fuel
  induction fuel with
  | zero =>
    intro s h
    left
    have hq : s.queue = [] := List.length_eq_zero.mp (Nat.le_zero.mp h)
    simpa [pumpFuel] using hq
  | succ f ih =>
    intro s h
    cases hq : s.queue with
    | nil => left; simp [pumpFuel, hq]
    | cons u rest =>
      by_cases hlt : s.active.length < N
      · have h2 := ih { s with queue := rest, active := u :: s.active,
                               started := s.started ++ [u] }
          (by rw [hq] at h; simpa using Nat.lt_succ_iff.mp (Nat.lt_of_lt_of_le (by simp) h) )
        simpa [pumpFuel, hq, hlt] using h2
      · right
        simp [pumpFuel, hq, hlt]
        omega

/-! Case characterizations of a single event step. -/

theorem lstep_load_eq (N : Nat) (s : LoaderState) (u : String) :
    ((∃ v, lookupKey s.cache u = some v) ∧ lstep N s (.load u) = s) ∨
    (lookupKey s.cache u = none ∧ u ∈ s.pending ∧ lstep N s (.load u) = s) ∨
    (lookupKey s.cache u = none ∧ u ∉ s.pending ∧
     lstep N s (.load u) =
       pump N { s with pending := u :: s.pending,
                       queue := s.queue ++ [u],
                       enqueued := s.enqueued ++ [u] }) := by
  cases hc : lookupKey s.cache u with
  | some v => exact Or.inl ⟨⟨v, rfl⟩, by simp [lstep, load, hc]⟩
  | none =>
    by_cases hp : u ∈ s.pending
    · exact Or.inr (Or.inl ⟨rfl, hp, by simp [lstep, load, hc, hp]⟩)
    · exact Or.inr (Or.inr ⟨rfl, hp, by simp [lstep, load, hc, hp]⟩)

theorem lstep_complete_eq (N : Nat) (s : LoaderState) (u : String) (b : Bool) :
    (u ∉ s.active ∧ lstep N s (.complete u b) = s) ∨
    (u ∈ s.active ∧
     lstep N s (.complete u b) =
       pump N { s with active := s.active.erase u,
                       cache := if b then (u, u) :: s.cache else s.cache,
                       pending := s.pending.erase u }) := by
  by_cases ha : u ∈ s.active
  · exact Or.inr ⟨ha, by simp [lstep, complete, ha]⟩
  · exact Or.inl ⟨ha, by simp [lstep, complete, ha]⟩

/-! Invariant preservation. -/

theorem pump_InvL (N : Nat) (s : LoaderState) (h : s.active.length ≤ N) :
    InvL N (pump N s) :=
  ⟨pumpFuel_active_le N s.queue.length s h,
   pumpFuel_post N s.queue.length s le_rfl⟩

theorem lstep_InvL (N : Nat) (s : LoaderState) (e : LEvent) (h : InvL N s) :
    InvL N (lstep N s e) := by
  cases e with
  | load u =>
    rcases lstep_load_eq N s u with ⟨_, heq⟩ | ⟨_, _, heq⟩ | ⟨_, _, heq⟩
    · rw [heq]; exact h
    · rw [heq]; exact h
    · rw [heq]; exact pump_InvL N _ h.1
  | complete u b =>
    rcases lstep_complete_eq N s u b with ⟨_, heq⟩ | ⟨_, heq⟩
    · rw [heq]; exact h
    · rw [heq]
      exact pump_InvL N _
        (le_trans (List.erase_sublist u s.active).length_le h.1)

theorem lrun_InvL (N : Nat) (es : List LEvent) : InvL N (lrun N es) :=
  foldl_inv (fun s e h => lstep_InvL N s e h) es initState
    ⟨Nat.zero_le N, Or.inl rfl⟩

theorem lstep_cacheDiag (N : Nat) (s : LoaderState) (e : LEvent)
    (h : cacheDiag s) : cacheDiag (lstep N s e) := by
  cases e with
  | load u =>
    rcases lstep_load_eq N s u with ⟨_, heq⟩ | ⟨_, _, heq⟩ | ⟨_, _, heq⟩
    · rw [heq]; exact h
    · rw [heq]; exact h
    · rw [heq]
      intro p hp
      rw [pump_cache] at hp
      exact h p hp
  | complete u b =>
    rcases lstep_complete_eq N s u b with ⟨_, heq⟩ | ⟨_, heq⟩
    · rw [heq]; exact h
    · rw [heq]
      intro p hp
      rw [pump_cache] at hp
      cases b with
      | false => exact h p hp
      | true =>
        simp only [if_true] at hp
        rcases List.mem_cons.mp hp with rfl | hp2
        · rfl
        · exact h p hp2

theorem lrun_cacheDiag (N : Nat) (es : List LEvent) : cacheDiag (lrun N es) :=
  foldl_inv (fun s e h => lstep_cacheDiag N s e h) es initState
    (fun p hp => absurd hp (List.not_mem_nil p))

theorem lstep_nocache (N : Nat) (src : String) (s : LoaderState) (e : LEvent)
    (h : ∀ v, (src, v) ∉ s.cache) (he : e ≠ LEvent.complete src true) :
    ∀ v, (src, v) ∉ (lstep N s e).cache := by
  cases e with
  | load u =>
    rcases lstep_load_eq N s u with ⟨_, heq⟩ | ⟨_, _, heq⟩ | ⟨_, _, heq⟩
    · rw [heq]; exact h
    · rw [heq]; exact h
    · rw [heq]
      intro v hv
      rw [pump_cache] at hv
      exact h v hv
  | complete u b =>
    rcases lstep_complete_eq N s u b with ⟨_, heq⟩ | ⟨_, heq⟩
    · rw [heq]; exact h
    · rw [heq]
      intro v hv
      rw [pump_cache] at hv
      cases b with
      | false => exact h v hv
      | true =>
        have hus : u ≠ src := by
          intro hh
          exact he (by rw [hh])
        simp only [if_true] at hv
        rcases List.mem_cons.mp hv with hv1 | hv2
        · exact hus (congrArg Prod.fst hv1).symm
        · exact h v hv2

theorem lstep_freshInv (N : Nat) (src : String) (s : LoaderState) (e : LEvent)
    (h : freshInv src s) (he : ∀ b, e ≠ LEvent.complete src b) :
    freshInv src (lstep N s e) := by
  obtain ⟨h1, h2, h3⟩ := h
  cases e with
  | load u =>
    rcases lstep_load_eq N s u with ⟨_, heq⟩ | ⟨_, _, heq⟩ | ⟨hc, hp, heq⟩
    · rw [heq]; exact ⟨h1, h2, h3⟩
    · rw [heq]; exact ⟨h1, h2, h3⟩
    · rw [heq]
      refine ⟨?_, ?_, ?_⟩
      · intro v hv
        rw [pump_cache] at hv
        exact h1 v hv
      · rw [pump_enqueued, pump_pending]
        by_cases hus : u = src
        · subst hus
          rw [if_neg hp] at h2
          simp [List.count_append, h2]
        · have hne : (u == src) = false := by
            simp [hus]
          have hmem : (src ∈ u :: s.pending) ↔ (src ∈ s.pending) := by
            constructor
            · intro hh
              rcases List.mem_cons.mp hh with rfl | hh2
              · exact absurd rfl hus
              · exact hh2
            · exact fun hh => List.mem_cons_of_mem _ hh
          have hcnt : List.count src [u] = 0 := by
            simp [List.count_cons, List.count_nil, hne]
          simp only [List.count_append, hcnt, Nat.add_zero, hmem]
          exact h2
      · rw [pump_enqueued, pump_count]
        simp only [List.count_append]
        omega
  | complete u b =>
    have hub : u ≠ src := by
      intro hh
      exact (he b) (by rw [hh])
    rcases lstep_complete_eq N s u b with ⟨_, heq⟩ | ⟨_, heq⟩
    · rw [heq]; exact ⟨h1, h2, h3⟩
    · rw [heq]
      refine ⟨?_, ?_, ?_⟩
      · intro v hv
        rw [pump_cache] at hv
        cases b with
        | false => exact h1 v hv
        | true =>
          simp only [if_true] at hv
          rcases List.mem_cons.mp hv with hv1 | hv2
          · exact hub (congrArg Prod.fst hv1).symm
          · exact h1 v hv2
      · rw [pump_enqueued, pump_pending]
        have : src ∈ s.pending.erase u ↔ src ∈ s.pending :=
          List.mem_erase_of_ne (fun hh => hub hh.symm)
        simp only [List.mem_erase_of_ne (fun hh => hub hh.symm)]
        exact h2
      · rw [pump_enqueued, pump_count]
        exact h3

theorem lstep_pending_mem (N : Nat) (src : String) (s : LoaderState)
    (e : LEvent) (hs : src ∈ s.pending) (he : ∀ b, e ≠ LEvent.complete src b) :
    src ∈ (lstep N s e).pending := by
  cases e with
  | load u =>
    rcases lstep_load_eq N s u with ⟨_, heq⟩ | ⟨_, _, heq⟩ | ⟨_, _, heq⟩
    · rw [heq]; exact hs
    · rw [heq]; exact hs
    · rw [heq, pump_pending]
      exact List.mem_cons_of_mem _ hs
  | complete u b =>
    have hub : src ≠ u := by
      intro hh
      exact (he b) (by rw [hh])
    rcases lstep_complete_eq N s u b with ⟨_, heq⟩ | ⟨_, heq⟩
    · rw [heq]; exact hs
    · rw [heq, pump_pending]
      exact (List.mem_erase_of_ne hub).mpr hs

theorem lstep_load_pending (N : Nat) (src : String) (s : LoaderState)
    (h1 : ∀ v, (src, v) ∉ s.cache) :
    src ∈ (lstep N s (.load src)).pending := by
  rcases lstep_load_eq N s src with ⟨⟨v, hv⟩, _⟩ | ⟨_, hp, heq⟩ | ⟨_, _, heq⟩
  · exact absurd (lookupKey_eq_some _ _ _ hv) (h1 v)
  · rw [heq]; exact hp
  · rw [heq, pump_pending]
    exact List.mem_cons_self _ _

theorem run_load_pending (N : Nat) (src : String) :
    ∀ (es : List LEvent) (s : LoaderState), freshInv src s →
      (∀ e ∈ es, ∀ b, e ≠ LEvent.complete src b) →
      (LEvent.load src ∈ es ∨ src ∈ s.pending) →
      src ∈ (es.foldl (lstep N) s).pending := by
  intro es
  induction es with
  | nil =>
    intro s hJ hq hmem
    exact hmem.resolve_left (by simp)
  | cons e rest ih =>
    intro s hJ hq hmem
    have hqe : ∀ b, e ≠ LEvent.complete src b :=
      hq e (List.mem_cons_self e rest)
    have hq1 : ∀ x ∈ rest, ∀ b, x ≠ LEvent.complete src b :=
      fun x hx => hq x (List.mem_cons_of_mem e hx)
    apply ih (lstep N s e) (lstep_freshInv N src s e hJ hqe) hq1
    rcases hmem with hm | hp
    · rcases List.mem_cons.mp hm with rfl | hm2
      · exact Or.inr (lstep_load_pending N src s hJ.1)
      · exact Or.inl hm2
    · exact Or.inr (lstep_pending_mem N src s e hp hqe)

theorem complete_step_bound (N : Nat) (s : LoaderState) (src : String)
    (success : Bool) (hInv : InvL N s) (hsrc : src ∈ s.active) :
    ∃ k ≤ 1,
      (complete N s src success).started.length = s.started.length + k ∧
      (complete N s src success).active.length + 1 = s.active.length + k := by
  set s1 : LoaderState :=
    { s with active := s.active.erase src,
             cache := if success then (src, src) :: s.cache else s.cache,
             pending := s.pending.erase src } with hs1
  have heq : complete N s src success = pump N s1 := by
    simp [complete, hsrc, hs1]
  rw [heq]
  obtain ⟨k0, hq1, hq2, hq3⟩ := pump_spec N s1
  have hn1 : 0 < s.active.length := List.length_pos_of_mem hsrc
  have herase : (s.active.erase src).length = s.active.length - 1 :=
    List.length_erase_of_mem hsrc
  have hlen2 : (pump N s1).started.length
      = s.started.length + (s.queue.take k0).length := by
    rw [hq2, List.length_append, hs1]
  have hlen3 : (pump N s1).active.length
      = (s.queue.take k0).length + (s.active.length - 1) := by
    rw [hq3, List.length_append, List.length_reverse, hs1]
    simp [herase]
  refine ⟨(s.queue.take k0).length, ?_, hlen2, by omega⟩
  by_cases hqnil : s.queue = []
  · simp [hqnil]
  · have hNn : N ≤ s.active.length := (hInv.2).resolve_left hqnil
    have hb : (pump N s1).started.length
        ≤ s1.started.length + (N - s1.active.length) :=
      pumpFuel_started_le N s1.queue.length s1
    have hss : s1.started.length = s.started.length := rfl
    have hsa : s1.active.length = s.active.length - 1 := herase
    rw [hss, hsa, hlen2] at hb
    omega

/-- C6: for every trace of load calls and fetch completions, the number of
simultaneously active fetch tasks never exceeds the configured concurrency
limit (in particular the default limit 6), and a completing task (success or
failure) decrements the active count and starts at most one next queued
task. -/
theorem C6_concurrency_bound :
    (∀ (N : Nat) (es : List LEvent), (lrun N es).active.length ≤ N) ∧
    (∀ (es : List LEvent),
       (lrun defaultConcurrency es).active.length ≤ defaultConcurrency) ∧
    (∀ (N : Nat) (es : List LEvent) (src : String) (success : Bool),
       src ∈ (lrun N es).active →
       ∃ k ≤ 1,
         (complete N (lrun N es) src success).started.length
           = (lrun N es).started.length + k ∧
         (complete N (lrun N es) src success).active.length + 1
           = (lrun N es).active.length + k) := by
  refine ⟨fun N es => (lrun_InvL N es).1,
          fun es => (lrun_InvL defaultConcurrency es).1,
          fun N es src success hsrc => ?_⟩
  exact complete_step_bound N (lrun N es) src success (lrun_InvL N es) hsrc

theorem C6_concurrency_bound_witness :
    "a" ∈ (lrun 1 [LEvent.load "a", LEvent.load "b"]).active ∧
    (∃ k ≤ 1,
       (complete 1 (lrun 1 [LEvent.load "a", LEvent.load "b"]) "a" true).started.length
         = (lrun 1 [LEvent.load "a", LEvent.load "b"]).started.length + k ∧
       (complete 1 (lrun 1 [LEvent.load "a", LEvent.load "b"]) "a" true).active.length + 1
         = (lrun 1 [LEvent.load "a", LEvent.load "b"]).active.length + k) :=
  ⟨by decide,
   C6_concurrency_bound.2.2 1 [LEvent.load "a", LEvent.load "b"] "a" true (by decide)⟩

/-- C7: for every url, any number of `load(url)` calls issued before the
first fetch for that url completes create exactly one fetch task (and start
at most one actual fetch); a further `load(url)` call in such a state
returns a waiting promise and leaves the loader state untouched, instead of
fetching again. -/
theorem C7_load_dedup (N : Nat) (es : List LEvent) (src : String)
    (hnc : noCompletion src es) (hload : LEvent.load src ∈ es) :
    List.count src (lrun N es).enqueued = 1 ∧
    List.count src (lrun N es).started ≤ 1 ∧
    load N (lrun N es) src = (lrun N es, LoadResult.waiting) := by
  have hq : ∀ e ∈ es, ∀ b, e ≠ LEvent.complete src b := by
    intro e hee b heq
    cases b with
    | true => exact hnc.1 (heq ▸ hee)
    | false => exact hnc.2 (heq ▸ hee)
  have hJ0 : freshInv src initState :=
    ⟨by simp [initState], by simp [initState], by simp [initState]⟩
  have hJ : freshInv src (lrun N es) :=
    foldl_inv_guard (fun e => ∀ b, e ≠ LEvent.complete src b)
      (fun s e h hqe => lstep_freshInv N src s e h hqe) es initState hJ0 hq
  have hp : src ∈ (lrun N es).pending :=
    run_load_pending N src es initState hJ0 hq (Or.inl hload)
  have henq : List.count src (lrun N es).enqueued = 1 := by
    rw [hJ.2.1, if_pos hp]
  refine ⟨henq, ?_, ?_⟩
  · have h3 := hJ.2.2
    omega
  · have hcn : lookupKey (lrun N es).cache src = none :=
      lookupKey_eq_none _ _ hJ.1
    simp [load, hcn, hp]

theorem C7_load_dedup_witness :
    noCompletion "a" [LEvent.load "a", LEvent.load "a", LEvent.load "a"] ∧
    LEvent.load "a" ∈ [LEvent.load "a", LEvent.load "a", LEvent.load "a"] ∧
    (List.count "a"
       (lrun 6 [LEvent.load "a", LEvent.load "a", LEvent.load "a"]).enqueued = 1 ∧
     List.count "a"
       (lrun 6 [LEvent.load "a", LEvent.load "a", LEvent.load "a"]).started ≤ 1 ∧
     load 6 (lrun 6 [LEvent.load "a", LEvent.load "a", LEvent.load "a"]) "a"
       = (lrun 6 [LEvent.load "a", LEvent.load "a", LEvent.load "a"],
          LoadResult.waiting)) :=
  ⟨by unfold noCompletion; exact ⟨by decide, by decide⟩, by decide,
   C7_load_dedup 6 [LEvent.load "a", LEvent.load "a", LEvent.load "a"] "a"
     (by unfold noCompletion; exact ⟨by decide, by decide⟩) (by decide)⟩

/-- C8: once a url has been fetched successfully it is in the success cache
mapped to itself, and every subsequent `load(url)` resolves synchronously
with the cached resolved url, leaving the loader state (hence the fetch
logs) untouched — no new fetch is issued. -/
theorem C8_cache_hit :
    (∀ (N : Nat) (es : List LEvent) (src v : String),
       lookupKey (lrun N es).cache src = some v →
       v = src ∧ load N (lrun N es) src = (lrun N es, LoadResult.hit v)) ∧
    (∀ (N : Nat) (s : LoaderState) (src : String),
       src ∈ s.active →
       lookupKey (complete N s src true).cache src = some src) := by
  constructor
  · intro N es src v h
    have hd : cacheDiag (lrun N es) := lrun_cacheDiag N es
    have hv : v = src := hd (src, v) (lookupKey_eq_some _ _ _ h)
    exact ⟨hv, by simp [load, h]⟩
  · intro N s src hsrc
    have heq : complete N s src true =
        pump N { s with active := s.active.erase src,
                        cache := (src, src) :: s.cache,
                        pending := s.pending.erase src } := by
      simp [complete, hsrc]
    rw [heq, pump_cache]
    simp [lookupKey]

theorem C8_cache_hit_witness :
    ("a" = "a" ∧
     load 6 (lrun 6 [LEvent.load "a", LEvent.complete "a" true]) "a"
       = (lrun 6 [LEvent.load "a", LEvent.complete "a" true],
          LoadResult.hit "a")) ∧
    lookupKey (complete 6 (lrun 6 [LEvent.load "a"]) "a" true).cache "a"
      = some "a" :=
  ⟨C8_cache_hit.1 6 [LEvent.load "a", LEvent.complete "a" true] "a" "a" (by decide),
   C8_cache_hit.2 6 (lrun 6 [LEvent.load "a"]) "a" (by decide)⟩

/-- C9: the failure path of a fetch removes the in-flight marker without
writing to the success cache, and in any trace that never completes a fetch
for `src` successfully the success cache never contains `src`; hence the
polling promise handed to a `load(src)` call that found `src` in-flight
never settles (its poll condition `CACHE.has(src)` stays false, and its
executor has no rejection path at all). -/
theorem C9_failed_fetch_waiter_never_settles :
    (∀ (N : Nat) (s : LoaderState) (src : String),
       src ∈ s.active →
       (complete N s src false).pending = s.pending.erase src ∧
       (complete N s src false).cache = s.cache) ∧
    (∀ (N : Nat) (es : List LEvent) (src : String),
       noSuccess src es → waiterSettles (lrun N es) src = false) := by
  constructor
  · intro N s src hsrc
    have heq : complete N s src false =
        pump N { s with active := s.active.erase src,
                        cache := s.cache,
                        pending := s.pending.erase src } := by
      simp [complete, hsrc]
    rw [heq, pump_pending, pump_cache]
    exact ⟨rfl, rfl⟩
  · intro N es src hns
    have hq : ∀ e ∈ es, e ≠ LEvent.complete src true := by
      intro e hee heq
      exact hns (heq ▸ hee)
    have h0 : ∀ v, (src, v) ∉ (initState).cache := by
      simp [initState]
    have h : ∀ v, (src, v) ∉ (lrun N es).cache :=
      foldl_inv_guard (fun e => e ≠ LEvent.complete src true)
        (fun s e hh hqe => lstep_nocache N src s e hh hqe) es initState h0 hq
    have hcn : lookupKey (lrun N es).cache src = none :=
      lookupKey_eq_none _ _ h
    simp [waiterSettles, hcn]

theorem C9_failed_fetch_waiter_never_settles_witness :
    ((complete 6 (lrun 6 [LEvent.load "a"]) "a" false).pending
       = (lrun 6 [LEvent.load "a"]).pending.erase "a" ∧
     (complete 6 (lrun 6 [LEvent.load "a"]) "a" false).cache
       = (lrun 6 [LEvent.load "a"]).cache) ∧
    waiterSettles (lrun 6 [LEvent.load "a", LEvent.load "a",
      LEvent.complete "a" false]) "a" = false :=
  ⟨C9_failed_fetch_waiter_never_settles.1 6 (lrun 6 [LEvent.load "a"]) "a"
     (by decide),
   C9_failed_fetch_waiter_never_settles.2 6
     [LEvent.load "a", LEvent.load "a", LEvent.complete "a" false] "a"
     (by unfold noSuccess; decide)⟩

end ImageQueue

namespace AppV2

/-! Helper lemmas about the outfit-layer store. -/

theorem setLastImageUrl_length (l : List OutfitLayer) (img : String) :
    (setLastImageUrl l img).length = l.length := by
  induction l with
  | nil => rfl
  | cons a t ih =>
    cases t with
    | nil => rfl
    | cons b t2 =>
      rw [show setLastImageUrl (a :: b :: t2) img
            = a :: setLastImageUrl (b :: t2) img from rfl]
      simp only [List.length_cons, ih]

theorem setLastImageUrl_ne_nil (l : List OutfitLayer) (img : String)
    (h : l ≠ []) : setLastImageUrl l img ≠ [] := by
  apply List.ne_nil_of_length_pos
  rw [setLastImageUrl_length]
  exact List.length_pos.mpr h

theorem setLastImageUrl_map_garment (l : List OutfitLayer) (img : String) :
    (setLastImageUrl l img).map OutfitLayer.garment
      = l.map OutfitLayer.garment := by
  induction l with
  | nil => rfl
  | cons a t ih =>
    cases t with
    | nil => rfl
    | cons b t2 =>
      rw [show setLastImageUrl (a :: b :: t2) img
            = a :: setLastImageUrl (b :: t2) img from rfl]
      simp only [List.map_cons, ih]

theorem setLastImageUrl_dropLast (l : List OutfitLayer) (img : String) :
    (setLastImageUrl l img).dropLast = l.dropLast := by
  induction l with
  | nil => rfl
  | cons a t ih =>
    cases t with
    | nil => rfl
    | cons b t2 =>
      have hne : setLastImageUrl (b :: t2) img ≠ [] :=
        setLastImageUrl_ne_nil _ _ (by simp)
      rw [show setLastImageUrl (a :: b :: t2) img
            = a :: setLastImageUrl (b :: t2) img from rfl]
      rw [dropLast_cons_ne_nil a hne, ih, dropLast_cons_ne_nil a (by simp)]

theorem setLastImageUrl_getLast?_imageUrl :
    ∀ (l : List OutfitLayer) (img : String), l ≠ [] →
      ((setLastImageUrl l img).getLast?).map OutfitLayer.imageUrl = some img := by
  intro l
  induction l with
  | nil => intro img h; exact absurd rfl h
  | cons a t ih =>
    intro img _
    cases t with
    | nil => rfl
    | cons b t2 =>
      have hne : setLastImageUrl (b :: t2) img ≠ [] :=
        setLastImageUrl_ne_nil _ _ (by simp)
      rw [show setLastImageUrl (a :: b :: t2) img
            = a :: setLastImageUrl (b :: t2) img from rfl]
      rw [getLast?_cons_of_ne_nil a hne]
      exact ih img (by simp)

theorem rehydrateLayer_garment_id (w : List WardrobeItem) (l : OutfitLayer) :
    ((rehydrateLayer w l).garment).map WardrobeItem.id
      = l.garment.map WardrobeItem.id := by
  cases hg : l.garment with
  | none => simp [rehydrateLayer, hg]
  | some g =>
    simp only [rehydrateLayer, hg]
    cases hf : w.find? (fun x => x.id == g.id) with
    | none => simp
    | some x =>
      have hpx := List.find?_some hf
      have hx : x.id = g.id := by simpa using hpx
      simp [hx]

theorem map_garment_id_rehydrate (w : List WardrobeItem)
    (l : List OutfitLayer) :
    (l.map (rehydrateLayer w)).map (fun x => x.garment.map WardrobeItem.id)
      = l.map (fun x => x.garment.map WardrobeItem.id) := by
  induction l with
  | nil => rfl
  | cons a t ih => simp [rehydrateLayer_garment_id, ih]

theorem setLastImageUrl_map_garment_id (l : List OutfitLayer) (img : String) :
    (setLastImageUrl l img).map (fun x => x.garment.map WardrobeItem.id)
      = l.map (fun x => x.garment.map WardrobeItem.id) := by
  calc (setLastImageUrl l img).map (fun x => x.garment.map WardrobeItem.id)
      = ((setLastImageUrl l img).map OutfitLayer.garment).map
          (fun g => g.map WardrobeItem.id) := by
        rw [List.map_map]
        rfl
    _ = (l.map OutfitLayer.garment).map (fun g => g.map WardrobeItem.id) := by
        rw [setLastImageUrl_map_garment]
    _ = l.map (fun x => x.garment.map WardrobeItem.id) := by
        rw [List.map_map]
        rfl

theorem handleLoadOutfit_found (s : DressState) (oid : String)
    (o : SavedOutfit)
    (hfind : s.savedOutfits.find? (fun x => x.id == oid) = some o)
    (hlen : 0 < o.layers.length) :
    handleLoadOutfit s oid
      = { s with
          outfitHistory :=
            setLastImageUrl (o.layers.map (rehydrateLayer s.wardrobe))
              o.previewImageUrl,
          poseVariations := [(0, o.previewImageUrl)],
          currentPoseIndex := 0 } := by
  simp [handleLoadOutfit, hfind, List.length_map, hlen]

theorem handleRemoveLastGarment_pop (s : DressState)
    (h : 1 < s.outfitHistory.length) :
    handleRemoveLastGarment s
      = { s with outfitHistory := s.outfitHistory.dropLast,
                 currentPoseIndex := 0, poseVariations := [] } := by
  simp [handleRemoveLastGarment, h]

theorem displayImageUrl_seeded (s : DressState) (p : String)
    (hpv : s.poseVariations = [(0, p)]) (hidx : s.currentPoseIndex = 0)
    (hlast : (s.outfitHistory.getLast?).map OutfitLayer.imageUrl = some p) :
    displayImageUrl s = some p := by
  unfold displayImageUrl
  rw [hpv, hidx, hlast]
  by_cases hp : p = "" <;> simp [lookupKey, jsOrElse, hp]

theorem displayImageUrl_eq_savePreview (s : DressState) (l : OutfitLayer)
    (hl : s.outfitHistory.getLast? = some l) :
    displayImageUrl s = some (savePreview s) := by
  unfold displayImageUrl savePreview
  rw [hl]
  cases hlk : lookupKey s.poseVariations s.currentPoseIndex with
  | none => rfl
  | some v =>
    by_cases hv : v = "" <;> simp [jsOrElse, hv]

/-- Invariant preservation: every store operation keeps the root layer
present and keeps every saved outfit non-empty. -/
theorem stepOp_InvD (s : DressState) (op : StoreOp) (h : InvD s) :
    InvD (stepOp s op) := by
  cases op with
  | addGarment f g tf =>
    simp only [stepOp, handleAddGarment]
    cases hg : s.outfitHistory.getLast? with
    | none => exact h
    | some layer =>
      dsimp only
      cases htf : tf layer.imageUrl f with
      | error e => exact h
      | ok n => exact ⟨by simp, h.2⟩
  | removeLast =>
    simp only [stepOp, handleRemoveLastGarment]
    by_cases hlen : 1 < s.outfitHistory.length
    · simp only [hlen, if_true]
      refine ⟨List.ne_nil_of_length_pos ?_, h.2⟩
      rw [List.length_dropLast]
      omega
    · simp only [hlen, if_false]
      exact h
  | selectPose i tf =>
    simp only [stepOp, handleSelectPose]
    split
    · exact ⟨h.1, h.2⟩
    · split
      · exact ⟨h.1, h.2⟩
      · split
        · exact ⟨h.1, h.2⟩
        · exact ⟨h.1, h.2⟩
  | saveOutfit n nid ts ok =>
    simp only [stepOp, handleSaveOutfit]
    by_cases hlen : s.outfitHistory.length ≤ 1
    · simp only [hlen, if_true]
      exact h
    · simp only [hlen, if_false]
      cases ok with
      | false => exact h
      | true =>
        refine ⟨h.1, ?_⟩
        intro o ho
        rcases List.mem_cons.mp ho with rfl | ho2
        · exact h.1
        · exact h.2 o ho2
  | loadOutfit oid =>
    simp only [stepOp, handleLoadOutfit]
    cases hf : s.savedOutfits.find? (fun o => o.id == oid) with
    | none => exact h
    | some o =>
      have ho : o ∈ s.savedOutfits := List.mem_of_find?_eq_some hf
      have hol : o.layers ≠ [] := h.2 o ho
      have hlen : 0 < (o.layers.map (rehydrateLayer s.wardrobe)).length := by
        rw [List.length_map]
        exact List.length_pos.mpr hol
      refine ⟨?_, h.2⟩
      simp only [hlen, if_true]
      exact setLastImageUrl_ne_nil _ _ (List.ne_nil_of_length_pos hlen)

end AppV2

/-- C1: if the external transform rejects during apply-garment
(`handleGarmentSelectForTryOn` in the first snapshot, `handleAddGarment` in
the second), the whole dressing-room state — in particular the outfit
history — after the rejected call equals (deep-equal) the state before the
call, the error is surfaced to the caller, and the transform was invoked
exactly once, i.e. the operation is not retried automatically. -/
theorem C1_transform_failure_leaves_history
    (tf1 tf2 : String → String → Except Err String) (model : UserModel)
    (s1 : AppV1.DressState) (s2 : AppV2.DressState)
    (gFile : String) (g : WardrobeItem)
    (layer1 : AppV1.OutfitLayer) (layer2 : AppV2.OutfitLayer)
    (base : String) (e1 e2 : Err)
    (hl1 : s1.outfitHistory.getLast? = some layer1)
    (hb : lookupKey layer1.poseImages AppV1.defaultPose = some base)
    (hbne : base ≠ "")
    (ht1 : tf1 base gFile = .error e1)
    (hl2 : s2.outfitHistory.getLast? = some layer2)
    (ht2 : tf2 layer2.imageUrl gFile = .error e2) :
    AppV1.handleGarmentSelectForTryOn tf1 model s1 gFile g
      = (s1, some e1, [(base, gFile)]) ∧
    AppV2.handleAddGarment tf2 s2 gFile g
      = (s2, some e2, [(layer2.imageUrl, gFile)]) := by
  constructor
  · simp [AppV1.handleGarmentSelectForTryOn, hl1, hb, hbne, ht1]
  · simp [AppV2.handleAddGarment, hl2, ht2]

theorem C1_transform_failure_leaves_history_witness :
    AppV1.handleGarmentSelectForTryOn (fun _ _ => .error "boom")
        ⟨"m1", "M", "model.png"⟩
        ⟨[⟨none, [(AppV1.defaultPose, "img0")]⟩], 0⟩ "shirt.png"
        ⟨"g1", "Shirt", "shirt.png", none⟩
      = (⟨[⟨none, [(AppV1.defaultPose, "img0")]⟩], 0⟩, some "boom",
         [("img0", "shirt.png")]) ∧
    AppV2.handleAddGarment (fun _ _ => .error "boom")
        ⟨[⟨none, "img0"⟩], 0, [(0, "img0")], [], []⟩ "shirt.png"
        ⟨"g1", "Shirt", "shirt.png", none⟩
      = (⟨[⟨none, "img0"⟩], 0, [(0, "img0")], [], []⟩, some "boom",
         [("img0", "shirt.png")]) :=
  C1_transform_failure_leaves_history
    (fun _ _ => .error "boom") (fun _ _ => .error "boom")
    ⟨"m1", "M", "model.png"⟩
    ⟨[⟨none, [(AppV1.defaultPose, "img0")]⟩], 0⟩
    ⟨[⟨none, "img0"⟩], 0, [(0, "img0")], [], []⟩
    "shirt.png" ⟨"g1", "Shirt", "shirt.png", none⟩
    ⟨none, [(AppV1.defaultPose, "img0")]⟩ ⟨none, "img0"⟩
    "img0" "boom" "boom"
    (by decide) (by decide) (by decide) rfl (by decide) rfl

/-- C3: for every non-empty history, apply-garment invokes the external
transform with the topmost layer's default-pose image as the base image
(never the currently displayed alternate-pose image), and on success appends
a new topmost layer whose pose-image map holds exactly one entry — the
default pose mapped to the transform's result — and resets
`currentPoseIndex` to the default pose (in the second snapshot the pose
cache is likewise replaced by exactly the default entry). -/
theorem C3_apply_garment_base_image
    (tf1 tf2 : String → String → Except Err String) (model : UserModel)
    (s1 : AppV1.DressState) (s2 : AppV2.DressState)
    (gFile : String) (g : WardrobeItem)
    (layer1 : AppV1.OutfitLayer) (layer2 : AppV2.OutfitLayer)
    (base n1 n2 : String)
    (hl1 : s1.outfitHistory.getLast? = some layer1)
    (hb : lookupKey layer1.poseImages AppV1.defaultPose = some base)
    (hbne : base ≠ "")
    (ht1 : tf1 base gFile = .ok n1)
    (hl2 : s2.outfitHistory.getLast? = some layer2)
    (ht2 : tf2 layer2.imageUrl gFile = .ok n2) :
    AppV1.handleGarmentSelectForTryOn tf1 model s1 gFile g
      = ({ outfitHistory := s1.outfitHistory ++
             [{ garment := some g,
                poseImages := [(AppV1.defaultPose, n1)] }],
           currentPoseIndex := 0 }, none, [(base, gFile)]) ∧
    AppV2.handleAddGarment tf2 s2 gFile g
      = ({ s2 with
            outfitHistory := s2.outfitHistory ++
              [{ garment := some g, imageUrl := n2 }],
            currentPoseIndex := 0,
            poseVariations := [(0, n2)] },
         none, [(layer2.imageUrl, gFile)]) ∧
    (∀ v, AppV1.displayImageUrl s1 = some v → v ≠ base →
       (AppV1.handleGarmentSelectForTryOn tf1 model s1 gFile g).2.2
         ≠ [(v, gFile)]) ∧
    (∀ v, AppV2.displayImageUrl s2 = some v → v ≠ layer2.imageUrl →
       (AppV2.handleAddGarment tf2 s2 gFile g).2.2 ≠ [(v, gFile)]) := by
  have h1 : AppV1.handleGarmentSelectForTryOn tf1 model s1 gFile g
      = ({ outfitHistory := s1.outfitHistory ++
             [{ garment := some g,
                poseImages := [(AppV1.defaultPose, n1)] }],
           currentPoseIndex := 0 }, none, [(base, gFile)]) := by
    simp [AppV1.handleGarmentSelectForTryOn, hl1, hb, hbne, ht1]
  have h2 : AppV2.handleAddGarment tf2 s2 gFile g
      = ({ s2 with
            outfitHistory := s2.outfitHistory ++
              [{ garment := some g, imageUrl := n2 }],
            currentPoseIndex := 0,
            poseVariations := [(0, n2)] },
         none, [(layer2.imageUrl, gFile)]) := by
    simp [AppV2.handleAddGarment, hl2, ht2]
  refine ⟨h1, h2, ?_, ?_⟩
  · intro v _ hvne heq
    rw [h1] at heq
    simp only [List.cons.injEq, Prod.mk.injEq, and_true] at heq
    exact hvne heq.symm
  · intro v _ hvne heq
    rw [h2] at heq
    simp only [List.cons.injEq, Prod.mk.injEq, and_true] at heq
    exact hvne heq.symm

theorem C3_apply_garment_base_image_witness :
    AppV1.handleGarmentSelectForTryOn (fun _ _ => .ok "new1")
        ⟨"m1", "M", "model.png"⟩
        ⟨[⟨none, [(AppV1.defaultPose, "img0")]⟩], 0⟩ "shirt.png"
        ⟨"g1", "Shirt", "shirt.png", none⟩
      = ({ outfitHistory := [⟨none, [(AppV1.defaultPose, "img0")]⟩] ++
             [{ garment := some ⟨"g1", "Shirt", "shirt.png", none⟩,
                poseImages := [(AppV1.defaultPose, "new1")] }],
           currentPoseIndex := 0 }, none, [("img0", "shirt.png")]) ∧
    AppV2.handleAddGarment (fun _ _ => .ok "new2")
        ⟨[⟨none, "img0"⟩], 0, [(0, "img0")], [], []⟩ "shirt.png"
        ⟨"g1", "Shirt", "shirt.png", none⟩
      = ({ outfitHistory := [⟨none, "img0"⟩] ++
             [{ garment := some ⟨"g1", "Shirt", "shirt.png", none⟩,
                imageUrl := "new2" }],
           currentPoseIndex := 0, poseVariations := [(0, "new2")],
           savedOutfits := [], wardrobe := [] },
         none, [("img0", "shirt.png")]) ∧
    (∀ v, AppV1.displayImageUrl ⟨[⟨none, [(AppV1.defaultPose, "img0")]⟩], 0⟩
        = some v → v ≠ "img0" →
       (AppV1.handleGarmentSelectForTryOn (fun _ _ => .ok "new1")
           ⟨"m1", "M", "model.png"⟩
           ⟨[⟨none, [(AppV1.defaultPose, "img0")]⟩], 0⟩ "shirt.png"
           ⟨"g1", "Shirt", "shirt.png", none⟩).2.2
         ≠ [(v, "shirt.png")]) ∧
    (∀ v, AppV2.displayImageUrl ⟨[⟨none, "img0"⟩], 0, [(0, "img0")], [], []⟩
        = some v → v ≠ "img0" →
       (AppV2.handleAddGarment (fun _ _ => .ok "new2")
           ⟨[⟨none, "img0"⟩], 0, [(0, "img0")], [], []⟩ "shirt.png"
           ⟨"g1", "Shirt", "shirt.png", none⟩).2.2
         ≠ [(v, "shirt.png")]) :=
  C3_apply_garment_base_image
    (fun _ _ => .ok "new1") (fun _ _ => .ok "new2")
    ⟨"m1", "M", "model.png"⟩
    ⟨[⟨none, [(AppV1.defaultPose, "img0")]⟩], 0⟩
    ⟨[⟨none, "img0"⟩], 0, [(0, "img0")], [], []⟩
    "shirt.png" ⟨"g1", "Shirt", "shirt.png", none⟩
    ⟨none, [(AppV1.defaultPose, "img0")]⟩ ⟨none, "img0"⟩
    "img0" "new1" "new2"
    (by decide) (by decide) (by decide) rfl (by decide) rfl

/-- C2: after initialization with a selected model, every sequence of store
operations (apply garment, remove last garment, select pose, save outfit,
load outfit — with the outcomes of their external calls arbitrary) keeps
the outfit history at length ≥ 1, provided every pre-existing saved outfit
has a non-empty layer chain (the application itself only persists histories
of length ≥ 2); and `removeLastGarment` on a history of length 1 leaves the
state — in particular the history — entirely unchanged, in both
snapshots. -/
theorem C2_root_layer_invariant :
    (∀ (model : UserModel) (wardrobe : List WardrobeItem)
       (outfits : List AppV2.SavedOutfit) (ops : List AppV2.StoreOp),
       (∀ o ∈ outfits, o.layers ≠ []) →
       1 ≤ (AppV2.runOps
             (AppV2.transitionToDressingRoom model wardrobe outfits)
             ops).outfitHistory.length) ∧
    (∀ s : AppV2.DressState, s.outfitHistory.length = 1 →
       AppV2.handleRemoveLastGarment s = s) ∧
    (∀ s : AppV1.DressState, s.outfitHistory.length = 1 →
       AppV1.handleRemoveLastGarment s = s) := by
  refine ⟨?_, ?_, ?_⟩
  · intro model wardrobe outfits ops houtfits
    have hInv : AppV2.InvD
        (AppV2.runOps (AppV2.transitionToDressingRoom model wardrobe outfits)
          ops) :=
      foldl_inv (fun s op h => AppV2.stepOp_InvD s op h) ops
        (AppV2.transitionToDressingRoom model wardrobe outfits)
        ⟨by simp [AppV2.transitionToDressingRoom], houtfits⟩
    exact List.length_pos.mpr hInv.1
  · intro s h
    simp [AppV2.handleRemoveLastGarment, h]
  · intro s h
    simp [AppV1.handleRemoveLastGarment, h]

theorem C2_root_layer_invariant_witness :
    (∀ o ∈ ([] : List AppV2.SavedOutfit), o.layers ≠ []) ∧
    1 ≤ (AppV2.runOps
           (AppV2.transitionToDressingRoom ⟨"m1", "M", "model.png"⟩ [] [])
           [AppV2.StoreOp.addGarment "shirt.png"
              ⟨"g1", "Shirt", "shirt.png", none⟩ (fun _ _ => .ok "new"),
            AppV2.StoreOp.removeLast,
            AppV2.StoreOp.removeLast]).outfitHistory.length ∧
    AppV2.handleRemoveLastGarment ⟨[⟨none, "img0"⟩], 0, [(0, "img0")], [], []⟩
      = ⟨[⟨none, "img0"⟩], 0, [(0, "img0")], [], []⟩ ∧
    AppV1.handleRemoveLastGarment ⟨[⟨none, [(AppV1.defaultPose, "img0")]⟩], 0⟩
      = ⟨[⟨none, [(AppV1.defaultPose, "img0")]⟩], 0⟩ :=
  ⟨by simp,
   C2_root_layer_invariant.1 ⟨"m1", "M", "model.png"⟩ [] []
     [AppV2.StoreOp.addGarment "shirt.png"
        ⟨"g1", "Shirt", "shirt.png", none⟩ (fun _ _ => .ok "new"),
      AppV2.StoreOp.removeLast,
      AppV2.StoreOp.removeLast] (by simp),
   C2_root_layer_invariant.2.1 ⟨[⟨none, "img0"⟩], 0, [(0, "img0")], [], []⟩
     (by decide),
   C2_root_layer_invariant.2.2
     ⟨[⟨none, [(AppV1.defaultPose, "img0")]⟩], 0⟩ (by decide)⟩

/-- C4 counterexample: in the first snapshot (`handlePoseSelect`), with the
topmost layer caching the default pose image "m" and the pose-1 variant "v",
the current pose index 1, and a pose-2 selection whose transform rejects:
the target pose is not cached, the error is surfaced, yet after the rejected
call `currentPoseIndex` is still 1 — not the default pose index 0 as the
claim states. -/
theorem C4_counterexample :
    lookupKey [(AppV1.defaultPose, "m"),
               ("Enyhén elfordulva, 3/4-es nézet", "v")]
        (AppV1.POSE_INSTRUCTIONS.getD 2 "") = none ∧
    (AppV1.handlePoseSelect (fun _ _ => Except.error "rejected")
        ⟨[⟨none, [(AppV1.defaultPose, "m"),
                  ("Enyhén elfordulva, 3/4-es nézet", "v")]⟩], 1⟩ 2).2.1
      = some "rejected" ∧
    (AppV1.handlePoseSelect (fun _ _ => Except.error "rejected")
        ⟨[⟨none, [(AppV1.defaultPose, "m"),
                  ("Enyhén elfordulva, 3/4-es nézet", "v")]⟩], 1⟩ 2).1.currentPoseIndex
      = 1 ∧
    ¬ (AppV1.handlePoseSelect (fun _ _ => Except.error "rejected")
        ⟨[⟨none, [(AppV1.defaultPose, "m"),
                  ("Enyhén elfordulva, 3/4-es nézet", "v")]⟩], 1⟩ 2).1.currentPoseIndex
      = 0 :=
  ⟨by decide, by decide, by decide, by decide⟩

/-- C4 (amended): for every pose not yet cached for the topmost layer, if
the external transform rejects during pose selection the error is surfaced
to the caller in both snapshots; in the second snapshot
(`handleSelectPose`) `currentPoseIndex` equals the default pose index 0
after the rejected call, while in the first snapshot (`handlePoseSelect`)
the state — including `currentPoseIndex` — keeps its pre-call value and is
not reverted to the default. -/
theorem C4_pose_failure_index
    (tf1 tf2 : String → String → Except Err String)
    (s1 : AppV1.DressState) (s2 : AppV2.DressState) (i1 i2 : Nat)
    (layer1 : AppV1.OutfitLayer) (layer2 : AppV2.OutfitLayer)
    (base : String) (e1 e2 : Err)
    (hc2 : jsTruthy (lookupKey s2.poseVariations i2) = false)
    (hl2 : s2.outfitHistory.getLast? = some layer2)
    (ht2 : tf2 layer2.imageUrl (AppV2.POSE_INSTRUCTIONS.getD i2 "")
             = .error e2)
    (hl1 : s1.outfitHistory.getLast? = some layer1)
    (hc1 : jsTruthy (lookupKey layer1.poseImages
             (AppV1.POSE_INSTRUCTIONS.getD i1 "")) = false)
    (hb : lookupKey layer1.poseImages AppV1.defaultPose = some base)
    (hbne : base ≠ "")
    (ht1 : tf1 base (AppV1.POSE_INSTRUCTIONS.getD i1 "") = .error e1) :
    (AppV2.handleSelectPose tf2 s2 i2).1.currentPoseIndex = 0 ∧
    (AppV2.handleSelectPose tf2 s2 i2).2.1 = some e2 ∧
    (AppV1.handlePoseSelect tf1 s1 i1).1 = s1 ∧
    (AppV1.handlePoseSelect tf1 s1 i1).2.1 = some e1 := by
  have key2 : AppV2.handleSelectPose tf2 s2 i2
      = ({ s2 with currentPoseIndex := 0 }, some e2,
         [(layer2.imageUrl, AppV2.POSE_INSTRUCTIONS.getD i2 "")]) := by
    unfold AppV2.handleSelectPose
    rw [hc2]
    simp only [Bool.false_eq_true, if_false]
    rw [hl2]
    dsimp only
    rw [ht2]
  have key1 : AppV1.handlePoseSelect tf1 s1 i1
      = (s1, some e1, [(base, AppV1.POSE_INSTRUCTIONS.getD i1 "")]) := by
    unfold AppV1.handlePoseSelect
    rw [hl1]
    dsimp only
    rw [hc1]
    simp only [Bool.false_eq_true, if_false]
    rw [hb]
    dsimp only
    rw [if_neg hbne, ht1]
  rw [key1, key2]
  exact ⟨rfl, rfl, rfl, rfl⟩

theorem C4_pose_failure_index_witness :
    (AppV2.handleSelectPose (fun _ _ => Except.error "rejected")
        ⟨[⟨none, "img0"⟩], 0, [(0, "img0")], [], []⟩ 3).1.currentPoseIndex
      = 0 ∧
    (AppV2.handleSelectPose (fun _ _ => Except.error "rejected")
        ⟨[⟨none, "img0"⟩], 0, [(0, "img0")], [], []⟩ 3).2.1
      = some "rejected" ∧
    (AppV1.handlePoseSelect (fun _ _ => Except.error "rejected")
        ⟨[⟨none, [(AppV1.defaultPose, "m")]⟩], 0⟩ 2).1
      = ⟨[⟨none, [(AppV1.defaultPose, "m")]⟩], 0⟩ ∧
    (AppV1.handlePoseSelect (fun _ _ => Except.error "rejected")
        ⟨[⟨none, [(AppV1.defaultPose, "m")]⟩], 0⟩ 2).2.1
      = some "rejected" :=
  C4_pose_failure_index
    (fun _ _ => Except.error "rejected") (fun _ _ => Except.error "rejected")
    ⟨[⟨none, [(AppV1.defaultPose, "m")]⟩], 0⟩
    ⟨[⟨none, "img0"⟩], 0, [(0, "img0")], [], []⟩ 2 3
    ⟨none, [(AppV1.defaultPose, "m")]⟩ ⟨none, "img0"⟩
    "m" "rejected" "rejected"
    (by decide) (by decide) rfl (by decide) (by decide) (by decide)
    (by decide) rfl

/-- C5: for every history with at least one garment layer (length ≥ 2),
saving and then loading the produced outfit against the same state (in
particular an unchanged wardrobe catalog) yields a history whose sequence
of garment ids matches the original's, whose topmost displayed image equals
the preview image captured at save time (the image displayed at the moment
of saving), and whose pose-variation cache holds exactly the default
entry — pose variants do not round-trip.  The external `saveOutfitForUser`
is modelled from the spec, its implementation not being part of the
sources. -/
theorem C5_save_load_round_trip (s : AppV2.DressState)
    (outfitName newId : String) (ts : Nat)
    (h2 : 2 ≤ s.outfitHistory.length) :
    AppV2.displayImageUrl s = some (AppV2.savePreview s) ∧
    (AppV2.handleLoadOutfit
        (AppV2.handleSaveOutfit s outfitName newId ts true).1
        newId).outfitHistory.map (fun l => l.garment.map WardrobeItem.id)
      = s.outfitHistory.map (fun l => l.garment.map WardrobeItem.id) ∧
    AppV2.displayImageUrl
        (AppV2.handleLoadOutfit
          (AppV2.handleSaveOutfit s outfitName newId ts true).1 newId)
      = some (AppV2.savePreview s) ∧
    (AppV2.handleLoadOutfit
        (AppV2.handleSaveOutfit s outfitName newId ts true).1
        newId).poseVariations
      = [(0, AppV2.savePreview s)] := by
  have hne : s.outfitHistory ≠ [] := by
    apply List.ne_nil_of_length_pos
    omega
  obtain ⟨last, hlast⟩ := getLast?_exists_of_ne_nil _ hne
  have hlen1 : ¬ s.outfitHistory.length ≤ 1 := by omega
  have hsave : (AppV2.handleSaveOutfit s outfitName newId ts true).1
      = { s with savedOutfits :=
            { id := newId, name := outfitName, createdAt := ts,
              previewImageUrl := AppV2.savePreview s,
              layers := s.outfitHistory } :: s.savedOutfits } := by
    simp [AppV2.handleSaveOutfit, AppV2.saveOutfitForUser, hlen1]
  have hfind :
      ({ s with savedOutfits :=
           { id := newId, name := outfitName, createdAt := ts,
             previewImageUrl := AppV2.savePreview s,
             layers := s.outfitHistory } :: s.savedOutfits } :
         AppV2.DressState).savedOutfits.find? (fun x => x.id == newId)
        = some { id := newId, name := outfitName, createdAt := ts,
                 previewImageUrl := AppV2.savePreview s,
                 layers := s.outfitHistory } :=
    List.find?_cons_of_pos _ (by simp)
  have hload := AppV2.handleLoadOutfit_found _ newId _ hfind
    (by show 0 < s.outfitHistory.length; omega)
  rw [hsave, hload]
  refine ⟨AppV2.displayImageUrl_eq_savePreview s last hlast, ?_, ?_, rfl⟩
  · dsimp only
    rw [AppV2.setLastImageUrl_map_garment_id, AppV2.map_garment_id_rehydrate]
  · apply AppV2.displayImageUrl_seeded
    · rfl
    · rfl
    · dsimp only
      apply AppV2.setLastImageUrl_getLast?_imageUrl
      apply List.ne_nil_of_length_pos
      rw [List.length_map]
      omega

theorem C5_save_load_round_trip_witness :
    AppV2.displayImageUrl
        ⟨[⟨none, "img0"⟩, ⟨some ⟨"g1", "Shirt", "shirt.png", none⟩, "img1"⟩],
         0, [(0, "img1")], [], [⟨"g1", "Shirt", "shirt.png", none⟩]⟩
      = some (AppV2.savePreview
          ⟨[⟨none, "img0"⟩, ⟨some ⟨"g1", "Shirt", "shirt.png", none⟩, "img1"⟩],
           0, [(0, "img1")], [], [⟨"g1", "Shirt", "shirt.png", none⟩]⟩) ∧
    (AppV2.handleLoadOutfit
        (AppV2.handleSaveOutfit
          ⟨[⟨none, "img0"⟩, ⟨some ⟨"g1", "Shirt", "shirt.png", none⟩, "img1"⟩],
           0, [(0, "img1")], [], [⟨"g1", "Shirt", "shirt.png", none⟩]⟩
          "Look" "o1" 7 true).1
        "o1").outfitHistory.map (fun l => l.garment.map WardrobeItem.id)
      = ([⟨none, "img0"⟩,
          ⟨some ⟨"g1", "Shirt", "shirt.png", none⟩, "img1"⟩] :
           List AppV2.OutfitLayer).map (fun l => l.garment.map WardrobeItem.id) ∧
    AppV2.displayImageUrl
        (AppV2.handleLoadOutfit
          (AppV2.handleSaveOutfit
            ⟨[⟨none, "img0"⟩, ⟨some ⟨"g1", "Shirt", "shirt.png", none⟩, "img1"⟩],
             0, [(0, "img1")], [], [⟨"g1", "Shirt", "shirt.png", none⟩]⟩
            "Look" "o1" 7 true).1
          "o1")
      = some (AppV2.savePreview
          ⟨[⟨none, "img0"⟩, ⟨some ⟨"g1", "Shirt", "shirt.png", none⟩, "img1"⟩],
           0, [(0, "img1")], [], [⟨"g1", "Shirt", "shirt.png", none⟩]⟩) ∧
    (AppV2.handleLoadOutfit
        (AppV2.handleSaveOutfit
          ⟨[⟨none, "img0"⟩, ⟨some ⟨"g1", "Shirt", "shirt.png", none⟩, "img1"⟩],
           0, [(0, "img1")], [], [⟨"g1", "Shirt", "shirt.png", none⟩]⟩
          "Look" "o1" 7 true).1
        "o1").poseVariations
      = [(0, AppV2.savePreview
            ⟨[⟨none, "img0"⟩, ⟨some ⟨"g1", "Shirt", "shirt.png", none⟩, "img1"⟩],
             0, [(0, "img1")], [], [⟨"g1", "Shirt", "shirt.png", none⟩]⟩)] :=
  C5_save_load_round_trip
    ⟨[⟨none, "img0"⟩, ⟨some ⟨"g1", "Shirt", "shirt.png", none⟩, "img1"⟩],
     0, [(0, "img1")], [], [⟨"g1", "Shirt", "shirt.png", none⟩]⟩
    "Look" "o1" 7 (by decide)

/-- C10: after `handleLoadOutfit` replaces the history, every layer except
the topmost has its image reference set to the empty string (the per-layer
saved renderings are not restored; only the last layer carries the saved
preview image), so after a subsequent `handleRemoveLastGarment` the new
topmost layer's image — and hence the displayed image — is the empty
string. -/
theorem C10_load_blanks_lower_layers (s : AppV2.DressState)
    (outfitId : String) (o : AppV2.SavedOutfit)
    (hfind : s.savedOutfits.find? (fun x => x.id == outfitId) = some o)
    (hlen : 2 ≤ o.layers.length) :
    (∀ x ∈ (AppV2.handleLoadOutfit s outfitId).outfitHistory.dropLast,
       x.imageUrl = "") ∧
    ((AppV2.handleRemoveLastGarment
        (AppV2.handleLoadOutfit s outfitId)).outfitHistory.getLast?).map
        AppV2.OutfitLayer.imageUrl = some "" ∧
    AppV2.displayImageUrl
        (AppV2.handleRemoveLastGarment (AppV2.handleLoadOutfit s outfitId))
      = some "" := by
  have hload := AppV2.handleLoadOutfit_found s outfitId o hfind (by omega)
  rw [hload]
  set rh := o.layers.map (AppV2.rehydrateLayer s.wardrobe) with hrh
  have hrhlen : rh.length = o.layers.length := by
    rw [hrh, List.length_map]
  have hall : ∀ x ∈ rh, x.imageUrl = "" := by
    intro x hx
    rw [hrh] at hx
    obtain ⟨y, _, rfl⟩ := List.mem_map.mp hx
    rfl
  have hdrop : (AppV2.setLastImageUrl rh o.previewImageUrl).dropLast
      = rh.dropLast :=
    AppV2.setLastImageUrl_dropLast rh o.previewImageUrl
  have hlen3 : 1 < (AppV2.setLastImageUrl rh o.previewImageUrl).length := by
    rw [AppV2.setLastImageUrl_length, hrhlen]
    omega
  have hdne : rh.dropLast ≠ [] := by
    apply List.ne_nil_of_length_pos
    rw [List.length_dropLast, hrhlen]
    omega
  obtain ⟨x, hx⟩ := getLast?_exists_of_ne_nil _ hdne
  have hximg : x.imageUrl = "" :=
    hall x (mem_of_mem_dropLast (getLast?_mem _ _ hx))
  refine ⟨?_, ?_, ?_⟩
  · intro z hz
    have hz2 : z ∈ rh.dropLast := by
      rw [← hdrop]
      exact hz
    exact hall z (mem_of_mem_dropLast hz2)
  · rw [AppV2.handleRemoveLastGarment_pop _ hlen3]
    show (((AppV2.setLastImageUrl rh o.previewImageUrl).dropLast).getLast?).map
        AppV2.OutfitLayer.imageUrl = some ""
    rw [hdrop, hx]
    simp [hximg]
  · rw [AppV2.handleRemoveLastGarment_pop _ hlen3]
    unfold AppV2.displayImageUrl
    show jsOrElse (lookupKey [] 0)
        ((((AppV2.setLastImageUrl rh o.previewImageUrl).dropLast).getLast?).map
          AppV2.OutfitLayer.imageUrl) = some ""
    rw [hdrop, hx]
    simp [lookupKey, jsOrElse, hximg]

theorem C10_load_blanks_lower_layers_witness :
    (∀ x ∈ (AppV2.handleLoadOutfit
        ⟨[⟨none, "img0"⟩], 0, [(0, "img0")],
         [⟨"o1", "Look", 7, "preview",
           [⟨none, "s0"⟩, ⟨some ⟨"g1", "Shirt", "shirt.png", none⟩, "s1"⟩]⟩],
         []⟩
        "o1").outfitHistory.dropLast, x.imageUrl = "") ∧
    ((AppV2.handleRemoveLastGarment (AppV2.handleLoadOutfit
        ⟨[⟨none, "img0"⟩], 0, [(0, "img0")],
         [⟨"o1", "Look", 7, "preview",
           [⟨none, "s0"⟩, ⟨some ⟨"g1", "Shirt", "shirt.png", none⟩, "s1"⟩]⟩],
         []⟩
        "o1")).outfitHistory.getLast?).map AppV2.OutfitLayer.imageUrl
      = some "" ∧
    AppV2.displayImageUrl
        (AppV2.handleRemoveLastGarment (AppV2.handleLoadOutfit
          ⟨[⟨none, "img0"⟩], 0, [(0, "img0")],
           [⟨"o1", "Look", 7, "preview",
             [⟨none, "s0"⟩, ⟨some ⟨"g1", "Shirt", "shirt.png", none⟩, "s1"⟩]⟩],
           []⟩
          "o1"))
      = some "" :=
  C10_load_blanks_lower_layers
    ⟨[⟨none, "img0"⟩], 0, [(0, "img0")],
     [⟨"o1", "Look", 7, "preview",
       [⟨none, "s0"⟩, ⟨some ⟨"g1", "Shirt", "shirt.png", none⟩, "s1"⟩]⟩],
     []⟩
    "o1"
    ⟨"o1", "Look", 7, "preview",
     [⟨none, "s0"⟩, ⟨some ⟨"g1", "Shirt", "shirt.png", none⟩, "s1"⟩]⟩
    (by decide) (by decide)

end Gardrob
